import Mathlib

/-!
# Verification of the immich-albums processing pipeline

A shallow embedding, in Lean 4, of the core processing pipeline of the
`jamo/immich-albums` repository: the device resolver
(`internal/processor/devices.go`), the location inferencer
(`internal/processor/inference.go`), the session clusterer
(`internal/processor/clustering.go`) and the trip segmenter
(`DetectTrips` and its helpers).

Modelling conventions:
* Go `time.Time` values are modelled as rational numbers of seconds;
  `Duration.Hours()` becomes division by 3600.
* Go `float64` coordinates and confidences are modelled as rationals.
* The haversine distance `CalculateDistance` calls transcendental
  functions (`sin`, `cos`, `atan2`); every component that merely
  *compares* distances is therefore parameterised by the distance
  function `dist : Dist`.  All structural theorems hold for every such
  metric; concrete evaluations place all points at identical
  coordinates, where the real haversine provably returns 0
  (`distance(a,a) == 0`).
* The process-wide side table `deviceCounterRanges` of `devices.go` is
  threaded as an explicit association-list argument, and the Go map
  iteration order (which is not determined by the map's contents) is
  made explicit as the order of an association list, so that statements
  about order (in)dependence can be expressed.
* `extractFilenameCounter` (a regular-expression scan) is passed as a
  function parameter `extract : String → Option ℕ` to the definitions
  that call it; concrete instantiations agree with the Go patterns on
  the filenames actually used.
* Presentation-only strings (the `Method` text of an inference, the
  generated trip/session display names) are not modelled.
-/

namespace ImmichAlbums

/-- Source tag of a location inference: the Go code writes the strings
`"nearby"` and `"interpolated"` into `LocationInference.Source`. -/
inductive Source where
  | nearby
  | interpolated
  deriving DecidableEq

/-- A GPS-tagged photo record, as consumed by the inference strategies
(`models.Asset` restricted to the fields read there; for members of the
GPS-present list, `Latitude`/`Longitude` are non-nil and are modelled as
plain rationals).  `time` is `LocalDateTime` in seconds. -/
structure GPSAsset where
  id   : String
  time : ℚ
  lat  : ℚ
  lon  : ℚ
  deriving DecidableEq

/-- A GPS-absent photo record (only its id and timestamp are read by the
inference strategies). -/
structure TargetAsset where
  id   : String
  time : ℚ
  deriving DecidableEq

/-- `processor.LocationInference` without the free-text `Method` field. -/
structure LocationInference where
  assetID    : String
  latitude   : ℚ
  longitude  : ℚ
  confidence : ℚ
  source     : Source
  deriving DecidableEq

/-- `InterpolationPenalty = 0.9` from `inference.go`. -/
def interpolationPenalty : ℚ := 9/10

/-- `MinimumConfidenceThreshold = 0.1` from `inference.go`. -/
def minimumConfidenceThreshold : ℚ := 1/10

/-- `calculateTimeBasedConfidence` from `inference.go`: the fixed decay
table keyed on the hours difference. -/
def calculateTimeBasedConfidence (hoursDiff : ℚ) : ℚ :=
  if hoursDiff < 1 then 1
  else if hoursDiff < 6 then 9/10
  else if hoursDiff < 24 then 7/10
  else if hoursDiff < 72 then 1/2
  else if hoursDiff < 168 then 3/10
  else if hoursDiff < 336 then 3/20
  else 1/10

/-- The insertion index computed by `sort.Search` in `inference.go`: the
smallest index whose candidate time is `≥` the target time.  On a
time-sorted candidate list this equals the length of the prefix of
strictly earlier candidates. -/
def insertionIdx (t : ℚ) (candidates : List GPSAsset) : ℕ :=
  (candidates.takeWhile (fun c => decide (c.time < t))).length

/-- `findNearestInTime` from `inference.go`: check the candidates just
before and at the insertion point and keep the strictly closer one (the
earlier candidate wins ties, because the later one replaces it only when
strictly closer). -/
def findNearestInTime (target : TargetAsset) (candidates : List GPSAsset) :
    Option GPSAsset :=
  let idx := insertionIdx target.time candidates
  let before := if idx = 0 then none else candidates.get? (idx - 1)
  let after := candidates.get? idx
  match before, after with
  | none, none => none
  | some b, none => some b
  | none, some a => some a
  | some b, some a =>
      if |target.time - a.time| < |target.time - b.time| then some a else some b

/-- `interpolateLocation` from `inference.go`: linear interpolation
between the bracketing GPS records, with the interpolation confidence
penalty and the minimum-confidence floor. -/
def interpolateLocation (target : TargetAsset) (gpsAssets : List GPSAsset) :
    Option LocationInference :=
  let idx := insertionIdx target.time gpsAssets
  if idx = 0 ∨ gpsAssets.length ≤ idx then none
  else
    match gpsAssets.get? (idx - 1), gpsAssets.get? idx with
    | some before, some after =>
        let totalDuration := after.time - before.time
        if totalDuration = 0 then none
        else
          let weight := (target.time - before.time) / totalDuration
          let lat := before.lat + (after.lat - before.lat) * weight
          let lon := before.lon + (after.lon - before.lon) * weight
          let timeDiffBefore := (target.time - before.time) / 3600
          let timeDiffAfter := (after.time - target.time) / 3600
          let confidence :=
            calculateTimeBasedConfidence (max timeDiffBefore timeDiffAfter) *
              interpolationPenalty
          if confidence < minimumConfidenceThreshold then none
          else some ⟨target.id, lat, lon, confidence, Source.interpolated⟩
    | _, _ => none

/-- `inferSingleLocation` from `inference.go`: try the nearest-in-time
strategy first; only when it is absent or its confidence is not above
the floor, fall through to interpolation. -/
def inferSingleLocation (asset : TargetAsset) (photographerGPS : List GPSAsset) :
    Option LocationInference :=
  match findNearestInTime asset photographerGPS with
  | some nearest =>
      let timeDiff := |asset.time - nearest.time| / 3600
      let confidence := calculateTimeBasedConfidence timeDiff
      if minimumConfidenceThreshold < confidence then
        some ⟨asset.id, nearest.lat, nearest.lon, confidence, Source.nearby⟩
      else
        interpolateLocation asset photographerGPS
  | none => interpolateLocation asset photographerGPS

/-! ## Device resolver (`internal/processor/devices.go`) -/

/-- A photo record as read by the device resolver
(`models.Asset` restricted to the fields the resolver consults). -/
structure DAsset where
  id       : String
  make     : String
  mdl      : String
  fileName : String
  deriving DecidableEq, Inhabited

/-- `models.Device` restricted to the fields written by the resolver. -/
structure MDevice where
  id         : String
  make       : String
  mdl        : String
  photoCount : ℕ
  deriving DecidableEq, Inhabited

/-- Model of Go's `strings.ToLower` (ASCII range, which covers every
make/model string used here), as a character-wise map. -/
def strToLower (s : String) : String := ⟨s.data.map Char.toLower⟩

/-- Model of Go's `strings.TrimSpace`: drop leading and trailing
whitespace. -/
def strTrim (s : String) : String :=
  ⟨((s.data.dropWhile Char.isWhitespace).reverse.dropWhile
      Char.isWhitespace).reverse⟩

/-- Model of Go's `strings.HasPrefix`. -/
def strHasPrefix (s pre : String) : Bool :=
  List.isPrefixOf pre.data s.data

/-- `makeDeviceID` from `devices.go`: normalise (lowercase, trim) the
make and model strings and join them with a dash. -/
def makeDeviceID (mk md : String) : String :=
  let mk := strTrim (strToLower mk)
  let md := strTrim (strToLower md)
  if mk = "" ∧ md = "" then "unknown" else mk ++ "-" ++ md

/-- A counter cluster during sub-device identification: the accepted
counter range so far plus the member records, in scan order. -/
structure CounterCluster where
  minCounter : ℕ
  maxCounter : ℕ
  assets     : List DAsset
  deriving DecidableEq

/-- The gap-splitting condition of `identifySubDevices`:
`gap > 1000 && (typicalIncrement == 0 || gap > typicalIncrement*20)`
with `typicalIncrement := clusterRange / max(clusterSize, 1)` (Go
integer division; counters are extracted from digit groups, so all
quantities are naturals). -/
def shouldSplitGap (gap clusterRange clusterSize : ℕ) : Bool :=
  let typicalIncrement := clusterRange / max clusterSize 1
  decide (1000 < gap) &&
    (decide (typicalIncrement = 0) || decide (typicalIncrement * 20 < gap))

/-- One step of the ascending-counter scan of `identifySubDevices`.  The
state is the list of closed clusters plus the cluster currently being
grown; the previous counter in scan order is always the current
cluster's `maxCounter`.  A split closes the current cluster and starts a
new one at the incoming counter. -/
def clusterScanStep (st : List CounterCluster × CounterCluster)
    (ac : DAsset × ℕ) : List CounterCluster × CounterCluster :=
  let gap := ac.2 - st.2.maxCounter
  if shouldSplitGap gap (st.2.maxCounter - st.2.minCounter) st.2.assets.length then
    (st.1 ++ [st.2], ⟨ac.2, ac.2, [ac.1]⟩)
  else
    (st.1, ⟨st.2.minCounter, ac.2, st.2.assets ++ [ac.1]⟩)

/-- The single-device fallback of `identifySubDevices`: one `Device`
whose id is the bare make-model key. -/
def mkSingleDevice (makeModel : String) (assets : List DAsset) : List MDevice :=
  [⟨makeModel, (assets.headD default).make, (assets.headD default).mdl,
    assets.length⟩]

/-- The records with an extractable filename counter
(`identifySubDevices` keeps the asset together with its counter). -/
def extractCounters (extract : String → Option ℕ) (assets : List DAsset) :
    List (DAsset × ℕ) :=
  assets.filterMap (fun a => (extract a.fileName).map (fun c => (a, c)))

/-- The counter scan of `identifySubDevices`: sort by counter value
(`sort.Slice`, modelled by a stable merge sort on the counter key),
seed the first cluster with the first record, fold the gap-splitting
step over the rest, and close the trailing cluster. -/
def scanClusters (sorted : List (DAsset × ℕ)) : List CounterCluster :=
  match sorted with
  | [] => []
  | first :: rest =>
      let scanned :=
        rest.foldl clusterScanStep ([], ⟨first.2, first.2, [first.1]⟩)
      scanned.1 ++ [scanned.2]

/-- The clusters surviving the ≥ 5-record noise filter of
`identifySubDevices`. -/
def significantClusters (extract : String → Option ℕ)
    (assets : List DAsset) : List CounterCluster :=
  (scanClusters
      (List.mergeSort (extractCounters extract assets)
        (fun x y => decide (x.2 ≤ y.2)))).filter
    (fun c => decide (5 ≤ c.assets.length))

/-- The device-emission step of `identifySubDevices`: each surviving
cluster becomes a `Device`; the id carries the `-device<N>` ordinal
suffix only when more than one cluster survived, and each device's
accepted counter range is recorded. -/
def emitDevices (makeModel : String) (significant : List CounterCluster) :
    List MDevice × List (String × ℕ × ℕ) :=
  let clusterID := fun (i : ℕ) =>
    if 1 < significant.length then makeModel ++ "-device" ++ toString (i + 1)
    else makeModel
  (significant.mapIdx (fun i c =>
     (⟨clusterID i, (c.assets.headD default).make,
       (c.assets.headD default).mdl, c.assets.length⟩ : MDevice)),
   significant.mapIdx (fun i c => (clusterID i, c.minCounter, c.maxCounter)))

/-- `identifySubDevices` from `devices.go`, parameterised by the
filename-counter extractor.  Returns the devices together with the
counter-range table entries the Go code writes into the process-wide
`deviceCounterRanges` map (threaded explicitly here).  Small groups,
groups with too few extractable counters and groups whose clusters are
all filtered out fall back to a single bare-key device. -/
def identifySubDevices (extract : String → Option ℕ) (makeModel : String)
    (assets : List DAsset) : List MDevice × List (String × ℕ × ℕ) :=
  if assets.length < 20 then (mkSingleDevice makeModel assets, [])
  else if (extractCounters extract assets).length < 10 then
    (mkSingleDevice makeModel assets, [])
  else if (significantClusters extract assets).length = 0 then
    (mkSingleDevice makeModel assets, [])
  else emitDevices makeModel (significantClusters extract assets)

/-- Lookup of a device id in the device map.  The Go map is modelled as
an association list; looking up by key is order-independent on maps
(unique keys), but the *iteration* order used by the fallbacks below is
exactly the list order. -/
def lookupDevice (devices : List (String × MDevice)) (id : String) :
    Option MDevice :=
  (devices.find? (fun p => p.1 == id)).map Prod.snd

/-- Lookup in the (explicitly threaded) `deviceCounterRanges` table. -/
def lookupRange (ranges : List (String × ℕ × ℕ)) (id : String) :
    Option (ℕ × ℕ) :=
  (ranges.find? (fun p => p.1 == id)).map Prod.snd

/-- The tolerance test of `findMatchingDeviceMap`: the counter must fall
within the stored range widened by 25 % (integer division) on each side.
In Go, `min - tolerance` may be negative and the test is then vacuous
for a non-negative counter; natural-number truncation gives the same
truth value. -/
def counterInRange (r : ℕ × ℕ) (counter : ℕ) : Bool :=
  let tolerance := (r.2 - r.1) / 4
  decide (r.1 - tolerance ≤ counter) && decide (counter ≤ r.2 + tolerance)

/-- `findMatchingDeviceMap` from `devices.go`, with the map iteration
order explicit as the order of the `devices` association list and the
counter-range side table and filename-counter extractor passed as
arguments. -/
def findMatchingDeviceMap (extract : String → Option ℕ)
    (ranges : List (String × ℕ × ℕ)) (asset : DAsset)
    (devices : List (String × MDevice)) : String :=
  let base := makeDeviceID asset.make asset.mdl
  if (lookupDevice devices base).isSome then base
  else
    match extract asset.fileName with
    | none =>
        match devices.find? (fun p => strHasPrefix p.1 (base ++ "-device")) with
        | some p => p.1
        | none => ""
    | some counter =>
        match devices.find? (fun p => strHasPrefix p.1 (base ++ "-device") &&
                (match lookupRange ranges p.1 with
                 | some r => counterInRange r counter
                 | none => false)) with
        | some p => p.1
        | none =>
            match devices.find? (fun p => strHasPrefix p.1 (base ++ "-device")) with
            | some p => p.1
            | none => ""

/-! ## Session clusterer (`internal/processor/clustering.go`) -/

/-- A distance function `(lat1, lon1, lat2, lon2) ↦ km`, abstracting
`CalculateDistance` (the haversine formula, which is transcendental and
only ever *compared* against thresholds by the components below). -/
def Dist : Type := ℚ → ℚ → ℚ → ℚ → ℚ

/-- `ClusteringParams` from `clustering.go`.  `minPhotosInSession` is a
Go `int`, kept as an integer so that non-positive configurations behave
as in the source. -/
structure ClusteringParams where
  maxTimeGapHours    : ℚ
  maxDistanceKM      : ℚ
  minPhotosInSession : ℤ
  deriving DecidableEq

/-- An `AssetWithLocation` as consumed by the per-photographer
clustering loop (asset id and timestamp plus the effective
coordinates). -/
structure LocAsset where
  id   : String
  time : ℚ
  lat  : ℚ
  lon  : ℚ
  deriving DecidableEq, Inhabited

/-- `models.Session` restricted to the fields the processor writes. -/
structure MSession where
  startTime    : ℚ
  endTime      : ℚ
  assetIDs     : List String
  centerLat    : ℚ
  centerLon    : ℚ
  radius       : ℚ
  photographer : String
  deriving DecidableEq, Inhabited

/-- The session-membership test of `clusterAssetsIntoSessions`: the time
gap (hours) since the previous photo is within `maxTimeGapHours` and the
distance from the previous photo is within `maxDistanceKM`. -/
def sessionOk (p : ClusteringParams) (dist : Dist) (prev curr : LocAsset) : Bool :=
  decide ((curr.time - prev.time) / 3600 ≤ p.maxTimeGapHours) &&
    decide (dist prev.lat prev.lon curr.lat curr.lon ≤ p.maxDistanceKM)

/-- The session-membership condition of `sessionOk` as a proposition:
time gap within `maxTimeGapHours` and distance within
`maxDistanceKM`. -/
def adjacentOk (p : ClusteringParams) (dist : Dist) (a b : LocAsset) : Prop :=
  (b.time - a.time) / 3600 ≤ p.maxTimeGapHours ∧
    dist a.lat a.lon b.lat b.lon ≤ p.maxDistanceKM

/-- The minimum-size emission guard of `clusterAssetsIntoSessions`. -/
def minSizeOk (p : ClusteringParams) (run : List LocAsset) : Bool :=
  decide (p.minPhotosInSession ≤ (run.length : ℤ))

/-- The linear clustering pass of `clusterAssetsIntoSessions`, returning
the emitted runs of assets (each run is later turned into a `Session`).
`prev` is the previous array element, which is always the last element
of the currently open run; a run is emitted only if it passes the
minimum-size guard. -/
def clusterGo (p : ClusteringParams) (dist : Dist) (prev : LocAsset)
    (cur : List LocAsset) : List LocAsset → List (List LocAsset)
  | [] => if minSizeOk p cur then [cur] else []
  | c :: rest =>
      if sessionOk p dist prev c then clusterGo p dist c (cur ++ [c]) rest
      else
        (if minSizeOk p cur then [cur] else []) ++ clusterGo p dist c [c] rest

/-- `createSessionFromAssets` from `clustering.go`: session bounds from
the first/last member, centroid as the arithmetic mean, radius as the
maximal distance from the centroid to a member. -/
def createSessionFromAssets (dist : Dist) (assets : List LocAsset)
    (photographer : String) : MSession :=
  let startTime := (assets.headD default).time
  let endTime := (assets.getLastD default).time
  let n : ℚ := assets.length
  let centerLat := (assets.map (·.lat)).sum / n
  let centerLon := (assets.map (·.lon)).sum / n
  let maxRadius :=
    (assets.map (fun a => dist centerLat centerLon a.lat a.lon)).foldl max 0
  ⟨startTime, endTime, assets.map (·.id), centerLat, centerLon, maxRadius,
    photographer⟩

/-- `clusterAssetsIntoSessions` from `clustering.go` (the input list is
the photographer's assets, already time-sorted by the caller
`DetectSessions`). -/
def clusterAssetsIntoSessions (p : ClusteringParams) (dist : Dist)
    (assets : List LocAsset) (photographer : String) : List MSession :=
  match assets with
  | [] => []
  | a :: rest =>
      (clusterGo p dist a [a] rest).map
        (fun run => createSessionFromAssets dist run photographer)

/-- The photographer-list accumulation loop of `combineSessionGroup`
(`""`, then the first name, then `", " + name` for each further one),
over the distinct names in first-occurrence order (the Go code iterates
a set in map order). -/
def joinComma : List String → String
  | [] => ""
  | p :: rest => rest.foldl (fun acc q => acc ++ ", " ++ q) p

/-- The pairwise merge test of `MergeSessions`: the candidate's start is
within `maxTimeGapHours` of the group member's end, and the centre
distance is within `maxDistanceKM`. -/
def pairwiseMergeOk (dist : Dist) (maxTimeGapHours maxDistanceKM : ℚ)
    (g cand : MSession) : Bool :=
  decide ((cand.startTime - g.endTime) / 3600 ≤ maxTimeGapHours) &&
    decide (dist g.centerLat g.centerLon cand.centerLat cand.centerLon ≤
      maxDistanceKM)

/-- The 50 km global cap of `MergeSessions`: recompute the mean centre
of the group plus the candidate and require every member's far edge
(centre distance plus own radius) to stay within
`maxMergedSessionRadius = 50`. -/
def groupRadiusOk (dist : Dist) (group : List MSession) (cand : MSession) : Bool :=
  let n : ℚ := group.length + 1
  let cLat := ((group.map (·.centerLat)).sum + cand.centerLat) / n
  let cLon := ((group.map (·.centerLon)).sum + cand.centerLon) / n
  let maxDist :=
    ((group ++ [cand]).map
      (fun s => dist cLat cLon s.centerLat s.centerLon + s.radius)).foldl max 0
  decide (maxDist ≤ 50)

/-- Finalisation of a merge group (`MergeSessions`): a singleton group
is kept as-is, a larger group is combined via `combineSessionGroup`. -/
def combineSessionGroup (dist : Dist) (sessions : List MSession) : MSession :=
  let startTime := (sessions.map (·.startTime)).foldl min
    (sessions.headD default).startTime
  let endTime := (sessions.map (·.endTime)).foldl max
    (sessions.headD default).endTime
  let allAssetIDs := (sessions.flatMap (·.assetIDs)).eraseDups
  let n : ℚ := sessions.length
  let centerLat := (sessions.map (·.centerLat)).sum / n
  let centerLon := (sessions.map (·.centerLon)).sum / n
  let maxRadius :=
    (sessions.map
      (fun s => dist centerLat centerLon s.centerLat s.centerLon + s.radius)).foldl
      max 0
  let photographerList := joinComma (sessions.map (·.photographer)).eraseDups
  ⟨startTime, endTime, allAssetIDs, centerLat, centerLon, maxRadius,
    photographerList⟩

/-- The `len(currentGroup) == 1` / `else` emission of `MergeSessions`. -/
def finalizeGroup (dist : Dist) (group : List MSession) : MSession :=
  match group with
  | [g] => g
  | _ => combineSessionGroup dist group

/-- The main loop of `MergeSessions` (the version in the source, with
the early-exit check against the earliest group member). -/
def mergeLoop (dist : Dist) (maxGap maxDist : ℚ) (merged : List MSession)
    (group : List MSession) : List MSession → List MSession
  | [] => merged ++ [finalizeGroup dist group]
  | s :: rest =>
      if maxGap < (s.startTime - (group.headD default).endTime) / 3600 then
        mergeLoop dist maxGap maxDist (merged ++ [finalizeGroup dist group])
          [s] rest
      else
        if group.any (fun g => pairwiseMergeOk dist maxGap maxDist g s) &&
            groupRadiusOk dist group s then
          mergeLoop dist maxGap maxDist merged (group ++ [s]) rest
        else
          mergeLoop dist maxGap maxDist (merged ++ [finalizeGroup dist group])
            [s] rest

/-- The main loop of `MergeSessions` with the early-exit check removed:
every group member is tested pairwise (the reference semantics against
which the claimed refinement is checked).  Modelled from the spec: "a
session joins the current group if, for *any* session already in the
group, both gap-to-end and distance-to-centroid fall within merge
thresholds", without the early-exit shortcut. -/
def mergeLoopFull (dist : Dist) (maxGap maxDist : ℚ) (merged : List MSession)
    (group : List MSession) : List MSession → List MSession
  | [] => merged ++ [finalizeGroup dist group]
  | s :: rest =>
      if group.any (fun g => pairwiseMergeOk dist maxGap maxDist g s) &&
          groupRadiusOk dist group s then
        mergeLoopFull dist maxGap maxDist merged (group ++ [s]) rest
      else
        mergeLoopFull dist maxGap maxDist (merged ++ [finalizeGroup dist group])
          [s] rest

/-- `MergeSessions` from `clustering.go`, applied to an already
time-sorted session list (the source sorts by start time first). -/
def mergeSessionsSorted (dist : Dist) (maxGap maxDist : ℚ)
    (sessions : List MSession) : List MSession :=
  if sessions.length ≤ 1 then sessions
  else
    match sessions with
    | [] => []
    | s :: rest => mergeLoop dist maxGap maxDist [] [s] rest

/-- The exhaustive-check variant of `MergeSessions` (no early exit). -/
def mergeSessionsFull (dist : Dist) (maxGap maxDist : ℚ)
    (sessions : List MSession) : List MSession :=
  if sessions.length ≤ 1 then sessions
  else
    match sessions with
    | [] => []
    | s :: rest => mergeLoopFull dist maxGap maxDist [] [s] rest

/-! ## Trip segmenter (`DetectTrips` in the processor package) -/

/-- `models.HomeLocation` restricted to the fields `DetectTrips` reads
(`calculateMinDistanceFromHomes` consults only the coordinates; the
radius field is not used by trip detection). -/
structure HomeLoc where
  lat : ℚ
  lon : ℚ
  deriving DecidableEq

/-- `TripCriteria`.  Durations (`MaxSessionGap`, `MinDuration`,
`MaxHomeStayDuration`) are Go `time.Duration` values, modelled in
seconds; `ForceSplitDates` are time points in seconds. -/
structure TripCriteria where
  minDistanceFromHome : ℚ
  maxSessionGap       : ℚ
  minDuration         : ℚ
  minSessions         : ℤ
  maxHomeStayDuration : ℚ
  forceSplitDates     : List ℚ
  deriving DecidableEq

/-- `models.Trip` restricted to the fields `createTripFromSessions`
computes (the generated display name is presentation-only and not
modelled; the photographer list keeps the distinct names). -/
structure MTrip where
  startTime     : ℚ
  endTime       : ℚ
  sessions      : List MSession
  homeDistance  : ℚ
  totalDistance : ℚ
  centerLat     : ℚ
  centerLon     : ℚ
  assetIDs      : List String
  photographers : List String
  sessionCount  : ℕ
  deriving DecidableEq

/-- `calculateMinDistanceFromHomes`: 999999 with no homes, else the
minimum distance from the session centre to a home. -/
def calculateMinDistanceFromHomes (dist : Dist) (s : MSession)
    (homes : List HomeLoc) : ℚ :=
  if homes = [] then 999999
  else
    (homes.map (fun h => dist s.centerLat s.centerLon h.lat h.lon)).foldl
      min 999999

/-- `createTripFromSessions` (display-name generation omitted). -/
def createTripFromSessions (dist : Dist) (homes : List HomeLoc)
    (sessions : List MSession) : MTrip :=
  let startTime := (sessions.headD default).startTime
  let endTime := (sessions.getLastD default).endTime
  let allAssetIDs := sessions.flatMap (·.assetIDs)
  let n : ℚ := sessions.length
  let centerLat := (sessions.map (·.centerLat)).sum / n
  let centerLon := (sessions.map (·.centerLon)).sum / n
  let minHomeDistance :=
    calculateMinDistanceFromHomes dist (sessions.headD default) homes
  let totalDistance :=
    ((sessions.zip sessions.tail).map
      (fun q => dist q.1.centerLat q.1.centerLon q.2.centerLat q.2.centerLon)).sum
  ⟨startTime, endTime, sessions, minHomeDistance, totalDistance, centerLat,
    centerLon, allAssetIDs, (sessions.map (·.photographer)).eraseDups,
    sessions.length⟩

/-- The loop state of `DetectTrips`: finalized trips, the sessions of
the open trip, the pending home-return timestamp, and the `inTrip`
flag. -/
structure TripState where
  trips               : List MTrip
  currentTripSessions : List MSession
  lastHomeReturnTime  : Option ℚ
  inTrip              : Bool
  deriving DecidableEq

/-- The finalize-with-checks step of `DetectTrips`: append the trip made
of the open sessions only if the minimum-session count and the
minimum-duration check pass. -/
def maybeFinalize (dist : Dist) (homes : List HomeLoc) (criteria : TripCriteria)
    (trips : List MTrip) (current : List MSession) : List MTrip :=
  if criteria.minSessions ≤ (current.length : ℤ) then
    let trip := createTripFromSessions dist homes current
    if criteria.minDuration ≤ trip.endTime - trip.startTime then trips ++ [trip]
    else trips
  else trips

/-- The forced-split test of `DetectTrips`: some configured split date
`d` satisfies `!lastSessionDate.After(d) && currentSessionDate.After(d)`,
i.e. `lastEnd ≤ d < start`, where `lastEnd` is the end of the last
session already in the open trip. -/
def shouldForceSplit (criteria : TripCriteria) (current : List MSession)
    (s : MSession) : Bool :=
  decide (current ≠ []) && decide (criteria.forceSplitDates ≠ []) &&
    criteria.forceSplitDates.any (fun d =>
      decide ((current.getLastD default).endTime ≤ d) && decide (d < s.startTime))

/-- The at-home/away part of the `DetectTrips` loop body (everything
after the forced-split branch).  The session comes tagged with its
at-home flag. -/
def detectStepCont (dist : Dist) (homes : List HomeLoc)
    (criteria : TripCriteria) (st : TripState) (s : MSession × Bool) :
    TripState :=
  if s.2 then
    if st.inTrip ∧ st.lastHomeReturnTime = none then
      { st with lastHomeReturnTime := some s.1.startTime }
    else st
  else
    if st.inTrip = false then
      ⟨st.trips, [s.1], none, true⟩
    else
      match st.lastHomeReturnTime with
      | some ret =>
          if criteria.maxHomeStayDuration < s.1.startTime - ret then
            ⟨maybeFinalize dist homes criteria st.trips st.currentTripSessions,
             [s.1], none, st.inTrip⟩
          else
            ⟨st.trips, st.currentTripSessions ++ [s.1], none, st.inTrip⟩
      | none =>
          if s.1.startTime - (st.currentTripSessions.getLastD default).endTime ≤
              criteria.maxSessionGap then
            { st with currentTripSessions := st.currentTripSessions ++ [s.1] }
          else
            ⟨maybeFinalize dist homes criteria st.trips st.currentTripSessions,
             [s.1], none, st.inTrip⟩

/-- One iteration body of the `DetectTrips` loop, minus the trailing
end-of-input check.  The returned boolean records whether the
forced-split branch ran (`continue` in Go, which skips the end-of-input
check); every other branch falls through with `false`. -/
def detectStep (dist : Dist) (homes : List HomeLoc) (criteria : TripCriteria)
    (st : TripState) (s : MSession × Bool) : TripState × Bool :=
  if shouldForceSplit criteria st.currentTripSessions s.1 && st.inTrip &&
      decide (st.currentTripSessions ≠ []) then
    (⟨maybeFinalize dist homes criteria st.trips st.currentTripSessions,
      [s.1], none, true⟩, true)
  else
    (detectStepCont dist homes criteria st s, false)

/-- The trailing end-of-input check of the `DetectTrips` loop body
(executed on the last iteration only, and only when the forced-split
branch did not `continue` past it). -/
def finalCheck (dist : Dist) (homes : List HomeLoc) (criteria : TripCriteria)
    (st : TripState) : TripState :=
  if st.inTrip ∧ st.currentTripSessions ≠ [] then
    ⟨maybeFinalize dist homes criteria st.trips st.currentTripSessions,
     st.currentTripSessions, st.lastHomeReturnTime, st.inTrip⟩
  else st

/-- The `DetectTrips` loop over the (time-sorted, at-home-tagged)
sessions. -/
def detectLoop (dist : Dist) (homes : List HomeLoc) (criteria : TripCriteria)
    (st : TripState) : List (MSession × Bool) → List MTrip
  | [] => st.trips
  | s :: rest =>
      let step := detectStep dist homes criteria st s
      let st' :=
        if rest = [] ∧ step.2 = false then
          finalCheck dist homes criteria step.1
        else step.1
      detectLoop dist homes criteria st' rest

/-- The at-home classification of `DetectTrips`. -/
def atHomeTag (dist : Dist) (homes : List HomeLoc) (criteria : TripCriteria)
    (s : MSession) : Bool :=
  decide (calculateMinDistanceFromHomes dist s homes <
    criteria.minDistanceFromHome)

/-- `DetectTrips`, applied to an already time-sorted session list (the
source sorts by start time first).  Sessions are pre-classified at
home/away; if no session is away the function returns no trips. -/
def DetectTrips (dist : Dist) (sessions : List MSession)
    (homes : List HomeLoc) (criteria : TripCriteria) : List MTrip :=
  if sessions = [] then []
  else
    let tagged := sessions.map (fun s => (s, atHomeTag dist homes criteria s))
    if (tagged.filter (fun p => !p.2)).length = 0 then []
    else detectLoop dist homes criteria ⟨[], [], none, false⟩ tagged

/-- A session classified away: its minimum distance to the homes is at
least the `minDistanceFromHome` threshold (the negation of the at-home
classification of `DetectTrips`). -/
def awaySession (dist : Dist) (homes : List HomeLoc) (criteria : TripCriteria)
    (s : MSession) : Prop :=
  criteria.minDistanceFromHome ≤ calculateMinDistanceFromHomes dist s homes

/-- The per-trip invariant of the trip segmenter: every session after
the first is away, the asset ids are exactly the concatenation of the
member sessions' asset ids, and — when no forced split dates are
configured — every session (including the first) is away. -/
def tripOK (dist : Dist) (homes : List HomeLoc) (criteria : TripCriteria)
    (t : MTrip) : Prop :=
  (∀ s ∈ t.sessions.tail, awaySession dist homes criteria s) ∧
  t.assetIDs = t.sessions.flatMap (·.assetIDs) ∧
  (criteria.forceSplitDates = [] → ∀ s ∈ t.sessions,
    awaySession dist homes criteria s)

/-- The loop invariant of the trip segmenter: all emitted trips satisfy
`tripOK`, all sessions after the first in the open trip are away, and —
with no forced split dates — all open-trip sessions are away. -/
def stateOK (dist : Dist) (homes : List HomeLoc) (criteria : TripCriteria)
    (st : TripState) : Prop :=
  (∀ t ∈ st.trips, tripOK dist homes criteria t) ∧
  (∀ s ∈ st.currentTripSessions.tail, awaySession dist homes criteria s) ∧
  (criteria.forceSplitDates = [] → ∀ s ∈ st.currentTripSessions,
    awaySession dist homes criteria s)

/-! ## Concrete instances used by witnesses and counterexamples -/

/-- The constant-zero metric: every concrete instance below places all
points at identical coordinates, where the haversine distance of
`CalculateDistance` is 0 (`distance(a,a) == 0`). -/
def distZero : Dist := fun _ _ _ _ => 0

/-- A latitude-difference metric (used where at-home and away sessions
must be distinguished); any metric works for the structural theorems,
which are parametric in `Dist`. -/
def distLat : Dist := fun lat1 _ lat2 _ => |lat1 - lat2| * 100

/-- An extractor that finds no counter — what `extractFilenameCounter`
returns on filenames (such as `"noise.dat"`) matching none of its
patterns. -/
def extractNone : String → Option ℕ := fun _ => none

/-- First away session of the forced-split scenario (ends at t=3600). -/
def cs0 : MSession := ⟨0, 3600, ["a0"], 0, 0, 0, "p"⟩

/-- Second away session of the forced-split scenario (starts at
t=20000; the split date 10000 lies strictly between `cs0.endTime` and
`cs1.startTime`). -/
def cs1 : MSession := ⟨20000, 23600, ["a1"], 0, 0, 0, "p"⟩

/-- Criteria for the forced-split scenario: one split date at t=10000,
minimum one session, no minimum duration, no homes relevant. -/
def ccrit : TripCriteria := ⟨50, 172800, 0, 1, 129600, [10000]⟩

/-- Away session at latitude 1 (100 km from the home at latitude 0
under `distLat`), t ∈ [0, 3600]. -/
def hsA : MSession := ⟨0, 3600, ["ha"], 1, 0, 0, "p"⟩

/-- At-home session at latitude 0, starting at t=7200 (the pending
home-return timestamp of the brief-return scenarios). -/
def hsH : MSession := ⟨7200, 10800, ["hh"], 0, 0, 0, "p"⟩

/-- Away session starting 10 hours (36000 s) after the home return. -/
def hsB10 : MSession := ⟨43200, 46800, ["hb"], 1, 0, 0, "p"⟩

/-- Away session starting 40 hours (144000 s) after the home return. -/
def hsB40 : MSession := ⟨151200, 154800, ["hb"], 1, 0, 0, "p"⟩

/-- The single home of the brief-return scenarios. -/
def homes6 : List HomeLoc := [⟨0, 0⟩]

/-- Criteria for the brief-return scenarios: 36-hour (129600 s)
max-home-stay budget, no forced split dates. -/
def crit6 : TripCriteria := ⟨50, 172800, 0, 1, 129600, []⟩

/-- First merge-scenario session: t ∈ [0, 3600]. -/
def ms0 : MSession := ⟨0, 3600, ["x0"], 0, 0, 0, "p0"⟩

/-- Second merge-scenario session: starts inside `ms0` but ends at
t=360000 (100 h) — the earliest-started group member does not have the
latest end. -/
def ms1 : MSession := ⟨1800, 360000, ["x1"], 0, 0, 0, "p1"⟩

/-- Third merge-scenario session: starts 1 h after `ms1` ends but 100 h
after `ms0` ends. -/
def ms2 : MSession := ⟨363600, 367200, ["x2"], 0, 0, 0, "p2"⟩

/-- Two sub-devices sharing the make/model key `canon-eos`, in one map
iteration order. -/
def devsOrder1 : List (String × MDevice) :=
  [("canon-eos-device1", ⟨"canon-eos-device1", "Canon", "EOS", 10⟩),
   ("canon-eos-device2", ⟨"canon-eos-device2", "Canon", "EOS", 12⟩)]

/-- The same device map in the other iteration order. -/
def devsOrder2 : List (String × MDevice) :=
  [("canon-eos-device2", ⟨"canon-eos-device2", "Canon", "EOS", 12⟩),
   ("canon-eos-device1", ⟨"canon-eos-device1", "Canon", "EOS", 10⟩)]

/-- An asset of that make/model whose filename carries no extractable
counter. -/
def asset4 : DAsset := ⟨"a", "Canon", "EOS", "noise.dat"⟩

/-! ## Helper lemmas -/

/-- The split decision of `identifySubDevices`, rewritten: for a
non-empty cluster, `typicalIncrement == 0 || gap > typicalIncrement*20`
is equivalent to `range == 0 || gap > 20*(range/size)` (when the
truncated mean increment is 0 with a non-zero range, the relative bound
`gap > 0` is already implied by `gap > 1000`). -/
theorem shouldSplitGap_eq_true_iff (gap range size : ℕ) (hsize : 1 ≤ size) :
    shouldSplitGap gap range size = true ↔
      (1000 < gap ∧ (range = 0 ∨ 20 * (range / size) < gap)) := by
  unfold shouldSplitGap
  rw [max_eq_left hsize]
  simp only [Bool.and_eq_true, Bool.or_eq_true, decide_eq_true_eq]
  constructor
  · rintro ⟨hg, ht | ht⟩
    · rcases Nat.eq_zero_or_pos range with h0 | _
      · exact ⟨hg, Or.inl h0⟩
      · refine ⟨hg, Or.inr ?_⟩
        rw [ht]
        omega
    · refine ⟨hg, Or.inr ?_⟩
      omega
  · rintro ⟨hg, h0 | hlt⟩
    · refine ⟨hg, Or.inl ?_⟩
      rw [h0]
      exact Nat.zero_div size
    · exact ⟨hg, Or.inr (by omega)⟩

/-! ## Claims -/

/-- C1 (counterexample): on the spec's own scenario — GPS photos of one
photographer at T+0h (10, 10) and T+10h (10.1, 10.1), a GPS-absent
photo at T+5h — `inferSingleLocation` returns an inference whose source
is `nearby` (not `interpolated`) and whose confidence is 0.9 (not
0.81): the nearest-in-time strategy already accepts at a 5-hour gap, so
the interpolation fallback is never reached. -/
theorem C1_interpolation_scenario_counterexample :
    (inferSingleLocation ⟨"t", 18000⟩
        [⟨"g0", 0, 10, 10⟩, ⟨"g1", 36000, 101/10, 101/10⟩]).map
      LocationInference.source = some Source.nearby ∧
    Source.nearby ≠ Source.interpolated ∧
    (inferSingleLocation ⟨"t", 18000⟩
        [⟨"g0", 0, 10, 10⟩, ⟨"g1", 36000, 101/10, 101/10⟩]).map
      LocationInference.confidence = some (9/10) ∧
    (9 : ℚ)/10 ≠ 81/100 := by
  have h : inferSingleLocation ⟨"t", 18000⟩
      [⟨"g0", 0, 10, 10⟩, ⟨"g1", 36000, 101/10, 101/10⟩] =
      some ⟨"t", 10, 10, 9/10, Source.nearby⟩ := by
    norm_num [inferSingleLocation, findNearestInTime, insertionIdx,
      calculateTimeBasedConfidence, minimumConfidenceThreshold, List.takeWhile]
  refine ⟨by rw [h]; rfl, by decide, by rw [h]; rfl, by norm_num⟩

/-- C1 (amended): in the scenario — GPS photos at T+0h (lat 10, lon 10)
and T+10h, GPS-absent photo at T+5h — the inference is produced by the
nearest-in-time strategy: source `nearby`, the coordinates (10, 10) of
the earlier (tie-broken) GPS photo, and confidence decay(5) = 0.9;
interpolation (which would give (10.05, 10.05) with confidence 0.81) is
attempted only when the nearest-in-time confidence does not exceed the
0.1 floor, which a 5-hour gap does exceed. -/
theorem C1_scenario_nearest_in_time :
    inferSingleLocation ⟨"t", 18000⟩
        [⟨"g0", 0, 10, 10⟩, ⟨"g1", 36000, 101/10, 101/10⟩] =
      some ⟨"t", 10, 10, 9/10, Source.nearby⟩ ∧
    calculateTimeBasedConfidence 5 = 9/10 := by
  constructor
  · norm_num [inferSingleLocation, findNearestInTime, insertionIdx,
      calculateTimeBasedConfidence, minimumConfidenceThreshold, List.takeWhile]
  · norm_num [calculateTimeBasedConfidence]

/-- C8: the confidence decay table is monotonically non-increasing in
the elapsed-hours argument, and for any gap the interpolated confidence
(decay times the 0.9 interpolation penalty, as computed by
`interpolateLocation`) is at most the nearest-in-time confidence (the
bare decay of the same gap, as computed by `inferSingleLocation`). -/
theorem C8_decay_monotone_and_penalty (h1 h2 g : ℚ) (hle : h1 ≤ h2) :
    calculateTimeBasedConfidence h2 ≤ calculateTimeBasedConfidence h1 ∧
    calculateTimeBasedConfidence g * interpolationPenalty ≤
      calculateTimeBasedConfidence g := by
  have hnonneg : ∀ x : ℚ, 0 ≤ calculateTimeBasedConfidence x := by
    intro x
    unfold calculateTimeBasedConfidence
    split_ifs <;> norm_num
  constructor
  · unfold calculateTimeBasedConfidence
    split_ifs <;> linarith
  · have h0 := hnonneg g
    unfold interpolationPenalty
    linarith

/-- C8 (witness): instantiation at hours 1 ≤ 2 and gap 5. -/
theorem C8_decay_monotone_and_penalty_witness :
    calculateTimeBasedConfidence 2 ≤ calculateTimeBasedConfidence 1 ∧
    calculateTimeBasedConfidence 5 * interpolationPenalty ≤
      calculateTimeBasedConfidence 5 :=
  C8_decay_monotone_and_penalty 1 2 5 (by norm_num)

/-- C5: during the ascending counter scan, a step closes the current
cluster and starts a new one exactly when the gap to the previous
counter exceeds 1000 and additionally either the current cluster has
zero counter range (relative check disabled) or the gap exceeds 20
times the cluster's mean increment (range divided by size, integer
division). -/
theorem C5_counter_gap_split (finished : List CounterCluster)
    (cur : CounterCluster) (a : DAsset) (c : ℕ)
    (hsize : 1 ≤ cur.assets.length) :
    clusterScanStep (finished, cur) (a, c) = (finished ++ [cur], ⟨c, c, [a]⟩) ↔
      (1000 < c - cur.maxCounter ∧
        (cur.maxCounter - cur.minCounter = 0 ∨
          20 * ((cur.maxCounter - cur.minCounter) / cur.assets.length) <
            c - cur.maxCounter)) := by
  have hiff := shouldSplitGap_eq_true_iff (c - cur.maxCounter)
    (cur.maxCounter - cur.minCounter) cur.assets.length hsize
  unfold clusterScanStep
  by_cases h : shouldSplitGap (c - cur.maxCounter)
      (cur.maxCounter - cur.minCounter) cur.assets.length = true
  · rw [if_pos h]
    exact iff_of_true rfl (hiff.mp h)
  · rw [if_neg h]
    refine iff_of_false ?_ (fun hc => h (hiff.mpr hc))
    intro heq
    have hlen := congrArg (fun q => q.1.length) heq
    simp at hlen

/-- C5 (witness): a first gap of 2000 from a fresh singleton cluster
(zero range) splits. -/
theorem C5_counter_gap_split_witness :
    clusterScanStep ([], ⟨0, 0, [⟨"w", "M", "X", "IMG_0.jpg"⟩]⟩)
        (⟨"w2", "M", "X", "IMG_2000.jpg"⟩, 2000) =
      ([⟨0, 0, [⟨"w", "M", "X", "IMG_0.jpg"⟩]⟩],
        ⟨2000, 2000, [⟨"w2", "M", "X", "IMG_2000.jpg"⟩]⟩) ∧
    1 ≤ ([⟨"w", "M", "X", "IMG_0.jpg"⟩] : List DAsset).length :=
  ⟨(C5_counter_gap_split [] ⟨0, 0, [⟨"w", "M", "X", "IMG_0.jpg"⟩]⟩
      ⟨"w2", "M", "X", "IMG_2000.jpg"⟩ 2000 (by decide)).mpr (by decide),
   by decide⟩

/-- C4 (counterexample): with two sub-devices of the same make/model
and a filename whose counter extraction fails, `findMatchingDeviceMap`
run over the same device map in its two possible iteration orders
returns two different device ids — the fallback picks whichever
prefix-matching device the map iteration yields first, so two
evaluations on identical inputs need not agree. -/
theorem C4_fallback_order_counterexample :
    findMatchingDeviceMap extractNone [] asset4 devsOrder1 ≠
      findMatchingDeviceMap extractNone [] asset4 devsOrder2 ∧
    devsOrder1.Perm devsOrder2 ∧
    extractNone asset4.fileName = none := by
  refine ⟨by decide, ?_, rfl⟩
  unfold devsOrder1 devsOrder2
  exact List.Perm.swap _ _ _

/-- C4 (amended): device matching is deterministic whenever a single
(non-split) device exists for the asset's make/model — the bare-key
branch returns the same id for every iteration order of the device map;
in the fallback cases (counter extraction fails, or no stored counter
range matches, with several sub-devices of that make/model) the result
depends on the map iteration order and two evaluations may differ. -/
theorem C4_base_device_order_independent (extract : String → Option ℕ)
    (ranges : List (String × ℕ × ℕ)) (asset : DAsset)
    (ds1 ds2 : List (String × MDevice)) (hperm : ds1.Perm ds2)
    (hbase : ∃ p ∈ ds1, p.1 = makeDeviceID asset.make asset.mdl) :
    findMatchingDeviceMap extract ranges asset ds1 =
      findMatchingDeviceMap extract ranges asset ds2 := by
  have key : ∀ ds : List (String × MDevice),
      (∃ p ∈ ds, p.1 = makeDeviceID asset.make asset.mdl) →
      findMatchingDeviceMap extract ranges asset ds =
        makeDeviceID asset.make asset.mdl := by
    intro ds hex
    have hsome : (lookupDevice ds (makeDeviceID asset.make asset.mdl)).isSome =
        true := by
      unfold lookupDevice
      rw [Option.isSome_map', List.find?_isSome]
      obtain ⟨p, hp, he⟩ := hex
      exact ⟨p, hp, by simp [he]⟩
    unfold findMatchingDeviceMap
    simp [hsome]
  obtain ⟨p, hp, he⟩ := hbase
  rw [key ds1 ⟨p, hp, he⟩, key ds2 ⟨p, hperm.mem_iff.mp hp, he⟩]

/-- C4 (witness): instantiation with a bare-key device present, in two
iteration orders. -/
theorem C4_base_device_order_independent_witness :
    findMatchingDeviceMap extractNone [] asset4
        [("canon-eos", ⟨"canon-eos", "Canon", "EOS", 3⟩),
         ("canon-eos-device1", ⟨"canon-eos-device1", "Canon", "EOS", 10⟩)] =
      findMatchingDeviceMap extractNone [] asset4
        [("canon-eos-device1", ⟨"canon-eos-device1", "Canon", "EOS", 10⟩),
         ("canon-eos", ⟨"canon-eos", "Canon", "EOS", 3⟩)] :=
  C4_base_device_order_independent extractNone [] asset4 _ _
    (List.Perm.swap _ _ _)
    ⟨("canon-eos", ⟨"canon-eos", "Canon", "EOS", 3⟩), by decide, by decide⟩

/-- C3 (counterexample): on a time-sorted session list in which a
later-started group member ends later than the earliest member
(sessions overlap), `MergeSessions` with the early exit splits a group
that the exhaustive pairwise check would merge: the early-exit run
yields 2 sessions, the exhaustive run 1.  All sessions share identical
coordinates, so the haversine distances involved are 0. -/
theorem C3_early_exit_counterexample :
    (mergeSessionsSorted distZero 5 10 [ms0, ms1, ms2]).length = 2 ∧
    (mergeSessionsFull distZero 5 10 [ms0, ms1, ms2]).length = 1 ∧
    List.Chain' (fun a b : MSession => a.startTime ≤ b.startTime)
      [ms0, ms1, ms2] := by
  refine ⟨?_, ?_, ?_⟩
  · norm_num [mergeSessionsSorted, mergeLoop, finalizeGroup,
      combineSessionGroup, pairwiseMergeOk, groupRadiusOk, joinComma, distZero,
      ms0, ms1, ms2, List.eraseDups, List.eraseDups.loop]
  · norm_num [mergeSessionsFull, mergeLoopFull, finalizeGroup,
      combineSessionGroup, pairwiseMergeOk, groupRadiusOk, joinComma, distZero,
      ms0, ms1, ms2, List.eraseDups, List.eraseDups.loop]
  · norm_num [ms0, ms1, ms2]

/-- C3 (amended): the early-exit reasoning is sound exactly under the
additional assumption that the earliest-started group member also has
the latest end time: then a too-large gap from that member implies that
no group member passes the pairwise merge test.  (Without that
assumption the early exit can cut off genuine matches, as the
counterexample shows, so it is not semantics-preserving in general.) -/
theorem C3_early_exit_sound (dist : Dist) (maxGap maxDist : ℚ)
    (group : List MSession) (cand : MSession)
    (hends : ∀ g ∈ group, g.endTime ≤ (group.headD default).endTime)
    (hgap : maxGap < (cand.startTime - (group.headD default).endTime) / 3600) :
    ∀ g ∈ group, pairwiseMergeOk dist maxGap maxDist g cand = false := by
  intro g hg
  have hge := hends g hg
  have hlt : maxGap < (cand.startTime - g.endTime) / 3600 := by
    have h2 : (cand.startTime - (group.headD default).endTime) / 3600 ≤
        (cand.startTime - g.endTime) / 3600 :=
      (div_le_div_iff_of_pos_right (by norm_num : (0:ℚ) < 3600)).mpr
        (by linarith)
    linarith
  have hfalse : decide ((cand.startTime - g.endTime) / 3600 ≤ maxGap) = false :=
    decide_eq_false (not_le.mpr hlt)
  simp [pairwiseMergeOk, hfalse]

/-- C3 (witness): instantiation at the singleton group `[ms0]` and
candidate `ms2` (gap 100 h > 5 h). -/
theorem C3_early_exit_sound_witness :
    pairwiseMergeOk distZero 5 10 ms0 ms2 = false :=
  C3_early_exit_sound distZero 5 10 [ms0] ms2
    (by intro g hg
        rw [List.mem_singleton] at hg
        subst hg
        exact le_refl _)
    (by norm_num [ms0, ms2])
    ms0 (List.mem_singleton.mpr rfl)

/-- C2 (counterexample): two away sessions with a forced split date
strictly between them (end 3600 < 10000 < start 20000, min-sessions 1,
min-duration 0) produce ONE trip, not two: the forced-split branch
`continue`s past the end-of-input finalization, so the trip opened with
the second session is never emitted.  Also, the split fires under the
half-open condition `lastEnd ≤ d < start`, not only strictly between. -/
theorem C2_forced_split_counterexample :
    (DetectTrips distZero [cs0, cs1] [] ccrit).length = 1 ∧
    cs0.endTime < 10000 ∧ (10000 : ℚ) < cs1.startTime ∧
    ccrit.forceSplitDates = [10000] ∧ ccrit.minSessions = 1 ∧
    ccrit.minDuration = 0 := by
  refine ⟨?_, by norm_num [cs0], by norm_num [cs1], rfl, rfl, rfl⟩
  norm_num [DetectTrips, detectLoop, detectStep, detectStepCont, finalCheck,
    shouldForceSplit, maybeFinalize, createTripFromSessions,
    calculateMinDistanceFromHomes, atHomeTag, distZero, cs0, cs1, ccrit,
    List.filter, List.eraseDups, List.eraseDups.loop]
  simp

/-- C2 (amended): (a) the loop body takes the forced-split branch
(finalizing the open trip, subject to the minimum checks, and opening a
new trip with the current session) exactly when a trip is open and some
split date `d` satisfies `lastTripSessionEnd ≤ d < currentStart` — at
or after the end of the last session already in the trip (not strictly
after) and strictly before the current session's start; (b) a forced
split date strictly between two away sessions finalizes exactly the
trip before the split regardless of the session-gap and home-stay
budgets — the trip opened with the second (here: last) session is
dropped, because the forced-split branch skips the end-of-input
finalization, so exactly one trip is emitted. -/
theorem C2_forced_split_amended :
    (∀ (dist : Dist) (homes : List HomeLoc) (criteria : TripCriteria)
        (st : TripState) (s : MSession) (tag : Bool),
        ((detectStep dist homes criteria st (s, tag)).2 = true ↔
          st.inTrip = true ∧ st.currentTripSessions ≠ [] ∧
            ∃ d ∈ criteria.forceSplitDates,
              (st.currentTripSessions.getLastD default).endTime ≤ d ∧
                d < s.startTime)) ∧
    (∀ gapBudget homeStayBudget : ℚ,
        DetectTrips distZero [cs0, cs1] []
            ⟨50, gapBudget, 0, 1, homeStayBudget, [10000]⟩ =
          [createTripFromSessions distZero [] [cs0]]) := by
  constructor
  · intro dist homes criteria st s tag
    have hcond : (shouldForceSplit criteria st.currentTripSessions s &&
        st.inTrip && decide (st.currentTripSessions ≠ [])) = true ↔
        (st.inTrip = true ∧ st.currentTripSessions ≠ [] ∧
          ∃ d ∈ criteria.forceSplitDates,
            (st.currentTripSessions.getLastD default).endTime ≤ d ∧
              d < s.startTime) := by
      simp only [shouldForceSplit, Bool.and_eq_true, decide_eq_true_eq,
        List.any_eq_true]
      constructor
      · rintro ⟨⟨⟨⟨hcur, hdates⟩, d, hd, hle, hlt⟩, hin⟩, hcur2⟩
        exact ⟨hin, hcur2, d, hd, hle, hlt⟩
      · rintro ⟨hin, hcur, d, hd, hle, hlt⟩
        exact ⟨⟨⟨⟨hcur, List.ne_nil_of_mem hd⟩, d, hd, hle, hlt⟩, hin⟩, hcur⟩
    unfold detectStep
    by_cases hc : (shouldForceSplit criteria st.currentTripSessions s &&
        st.inTrip && decide (st.currentTripSessions ≠ [])) = true
    · rw [if_pos hc]
      exact iff_of_true rfl (hcond.mp hc)
    · rw [if_neg hc]
      exact iff_of_false (by simp) (fun hr => hc (hcond.mpr hr))
  · intro gapBudget homeStayBudget
    have h1 : detectStep distZero []
        ⟨50, gapBudget, 0, 1, homeStayBudget, [10000]⟩ ⟨[], [], none, false⟩
        (cs0, false) = (⟨[], [cs0], none, true⟩, false) := by
      norm_num [detectStep, detectStepCont, shouldForceSplit, cs0]
    have h2 : detectStep distZero []
        ⟨50, gapBudget, 0, 1, homeStayBudget, [10000]⟩ ⟨[], [cs0], none, true⟩
        (cs1, false) =
        (⟨[createTripFromSessions distZero [] [cs0]], [cs1], none, true⟩,
         true) := by
      norm_num [detectStep, detectStepCont, shouldForceSplit, cs0, cs1,
        maybeFinalize, createTripFromSessions]
    have h3 : DetectTrips distZero [cs0, cs1] []
        ⟨50, gapBudget, 0, 1, homeStayBudget, [10000]⟩ =
        detectLoop distZero [] ⟨50, gapBudget, 0, 1, homeStayBudget, [10000]⟩
          ⟨[], [], none, false⟩ [(cs0, false), (cs1, false)] := by
      norm_num [DetectTrips, atHomeTag, calculateMinDistanceFromHomes,
        distZero, List.filter]
      exact fun hc => absurd hc (List.cons_ne_nil _ _)
    rw [h3, detectLoop, h1]
    norm_num
    rw [detectLoop, h2]
    norm_num [detectLoop]

/-- C2 (witness): the two-session forced-split run at concrete budget
values. -/
theorem C2_forced_split_amended_witness :
    DetectTrips distZero [cs0, cs1] [] ⟨50, 0, 0, 1, 0, [10000]⟩ =
      [createTripFromSessions distZero [] [cs0]] :=
  C2_forced_split_amended.2 0 0

/-- C6: for an away session processed while a trip is open with a
pending home-return timestamp: if the home-stay duration (session start
minus the pending timestamp) exceeds the max-home-stay budget, the open
trip is finalized (subject to the minimum-session and minimum-duration
checks) and a new trip starts with this session; otherwise the session
is appended to the same trip and the pending marker is cleared.
Scenarios: a 10-hour at-home period under a 36-hour budget leaves one
trip containing both away sessions; a 40-hour at-home period splits
into two trips. -/
theorem C6_home_stay (dist : Dist) (homes : List HomeLoc)
    (criteria : TripCriteria) (st : TripState) (s : MSession) (ret : ℚ)
    (hsplit : shouldForceSplit criteria st.currentTripSessions s = false)
    (hin : st.inTrip = true) (hpend : st.lastHomeReturnTime = some ret) :
    (criteria.maxHomeStayDuration < s.startTime - ret →
       detectStep dist homes criteria st (s, false) =
         (⟨maybeFinalize dist homes criteria st.trips st.currentTripSessions,
           [s], none, st.inTrip⟩, false)) ∧
    (s.startTime - ret ≤ criteria.maxHomeStayDuration →
       detectStep dist homes criteria st (s, false) =
         (⟨st.trips, st.currentTripSessions ++ [s], none, st.inTrip⟩,
          false)) ∧
    (DetectTrips distLat [hsA, hsH, hsB10] homes6 crit6).map (·.assetIDs) =
      [["ha", "hb"]] ∧
    (DetectTrips distLat [hsA, hsH, hsB40] homes6 crit6).map (·.assetIDs) =
      [["ha"], ["hb"]] := by
  refine ⟨?_, ?_, ?_, ?_⟩
  · intro hgt
    simp [detectStep, hsplit, detectStepCont, hin, hpend, hgt]
  · intro hle
    simp [detectStep, hsplit, detectStepCont, hin, hpend, not_lt.mpr hle]
  · norm_num [DetectTrips, detectLoop, detectStep, detectStepCont, finalCheck,
      shouldForceSplit, maybeFinalize, createTripFromSessions,
      calculateMinDistanceFromHomes, atHomeTag, distLat, hsA, hsH, hsB10,
      homes6, crit6, List.filter, List.eraseDups, List.eraseDups.loop,
      min_def]
    simp
    norm_num
    try simp
  · norm_num [DetectTrips, detectLoop, detectStep, detectStepCont, finalCheck,
      shouldForceSplit, maybeFinalize, createTripFromSessions,
      calculateMinDistanceFromHomes, atHomeTag, distLat, hsA, hsH, hsB40,
      homes6, crit6, List.filter, List.eraseDups, List.eraseDups.loop,
      min_def]
    simp
    norm_num
    try simp

/-- C6 (witness): an away session (`hsB10`) 10 hours after the pending
home return is appended to the open trip and clears the marker. -/
theorem C6_home_stay_witness :
    detectStep distLat homes6 crit6 ⟨[], [hsA], some 7200, true⟩
      (hsB10, false) = (⟨[], [hsA, hsB10], none, true⟩, false) :=
  (C6_home_stay distLat homes6 crit6 ⟨[], [hsA], some 7200, true⟩ hsB10 7200
      (by rfl) rfl rfl).2.1 (by norm_num [hsB10, crit6])

/-- Boolean-to-Prop form of the session-membership test. -/
theorem sessionOk_eq_true_iff (p : ClusteringParams) (dist : Dist)
    (a b : LocAsset) :
    sessionOk p dist a b = true ↔ adjacentOk p dist a b := by
  simp [sessionOk, adjacentOk]

/-- Every run emitted by the clustering loop is non-empty, passes the
minimum-size guard, and is chained by the adjacency condition (the loop
invariant: the open run is chained and ends at the previous element). -/
theorem clusterGo_mem (p : ClusteringParams) (dist : Dist) :
    ∀ (rest : List LocAsset) (prev : LocAsset) (cur : List LocAsset),
      cur ≠ [] → cur.getLast? = some prev →
      List.Chain' (adjacentOk p dist) cur →
      ∀ run ∈ clusterGo p dist prev cur rest,
        run ≠ [] ∧ minSizeOk p run = true ∧
          List.Chain' (adjacentOk p dist) run := by
  intro rest
  induction rest with
  | nil =>
    intro prev cur hne hlast hchain run hrun
    simp only [clusterGo] at hrun
    by_cases hmin : minSizeOk p cur = true
    · rw [if_pos hmin] at hrun
      rw [List.mem_singleton] at hrun
      subst hrun
      exact ⟨hne, hmin, hchain⟩
    · rw [if_neg hmin] at hrun
      exact absurd hrun (List.not_mem_nil run)
  | cons c rest ih =>
    intro prev cur hne hlast hchain run hrun
    simp only [clusterGo] at hrun
    by_cases hok : sessionOk p dist prev c = true
    · rw [if_pos hok] at hrun
      refine ih c (cur ++ [c]) (by simp) (List.getLast?_concat _) ?_ run hrun
      refine List.chain'_append.mpr ⟨hchain, List.chain'_singleton _, ?_⟩
      intro x hx y hy
      rw [hlast, Option.mem_some_iff] at hx
      simp only [List.head?_cons, Option.mem_some_iff] at hy
      subst hx
      subst hy
      exact (sessionOk_eq_true_iff p dist prev c).mp hok
    · rw [if_neg hok] at hrun
      rw [List.mem_append] at hrun
      rcases hrun with h | h
      · by_cases hmin : minSizeOk p cur = true
        · rw [if_pos hmin, List.mem_singleton] at h
          subst h
          exact ⟨hne, hmin, hchain⟩
        · rw [if_neg hmin] at h
          exact absurd h (List.not_mem_nil run)
      · exact ih c [c] (by simp) rfl (List.chain'_singleton _) run h

/-- C7: every session emitted by the per-photographer clustering pass
comes from a run of (order-preserved, hence temporally adjacent) photos
in which every consecutive pair is within the max-time-gap and
max-distance thresholds, and the session's photo-id list is that run's
id list — with at least min-photos-per-session members, hence
non-empty. -/
theorem C7_session_invariants (p : ClusteringParams) (dist : Dist)
    (assets : List LocAsset) (photographer : String) :
    ∀ s ∈ clusterAssetsIntoSessions p dist assets photographer,
      ∃ run : List LocAsset, run ≠ [] ∧
        s = createSessionFromAssets dist run photographer ∧
        s.assetIDs = run.map (·.id) ∧
        p.minPhotosInSession ≤ (s.assetIDs.length : ℤ) ∧ s.assetIDs ≠ [] ∧
        List.Chain' (adjacentOk p dist) run := by
  intro s hs
  cases assets with
  | nil => simp [clusterAssetsIntoSessions] at hs
  | cons a rest =>
    simp only [clusterAssetsIntoSessions, List.mem_map] at hs
    obtain ⟨run, hrun, hcreate⟩ := hs
    obtain ⟨hne, hmin, hchain⟩ :=
      clusterGo_mem p dist rest a [a] (by simp) rfl
        (List.chain'_singleton _) run hrun
    subst hcreate
    have hids : (createSessionFromAssets dist run photographer).assetIDs =
        run.map (·.id) := by
      simp [createSessionFromAssets]
    refine ⟨run, hne, rfl, hids, ?_, ?_, hchain⟩
    · rw [hids]
      rw [minSizeOk, decide_eq_true_eq] at hmin
      simpa using hmin
    · rw [hids]
      simpa using hne

/-- C7 (witness): a two-photo session under min-photos 1 has a
non-empty id list of length at least 1. -/
theorem C7_session_invariants_witness :
    (createSessionFromAssets distZero
        [⟨"w1", 0, 0, 0⟩, ⟨"w2", 1800, 0, 0⟩] "q").assetIDs ≠ [] ∧
    (1 : ℤ) ≤ ((createSessionFromAssets distZero
        [⟨"w1", 0, 0, 0⟩, ⟨"w2", 1800, 0, 0⟩] "q").assetIDs.length : ℤ) := by
  obtain ⟨run, hne, hcr, hids, hlen, hnil, hch⟩ :=
    C7_session_invariants ⟨1, 1, 1⟩ distZero
      [⟨"w1", 0, 0, 0⟩, ⟨"w2", 1800, 0, 0⟩] "q"
      (createSessionFromAssets distZero
        [⟨"w1", 0, 0, 0⟩, ⟨"w2", 1800, 0, 0⟩] "q")
      (by norm_num [clusterAssetsIntoSessions, clusterGo, sessionOk,
        minSizeOk, distZero])
  exact ⟨hnil, hlen⟩

/-- Length and id shape of the devices emitted for surviving
clusters. -/
theorem emitDevices_id_spec (m : String) (sig : List CounterCluster) :
    (emitDevices m sig).1.length = sig.length ∧
    ∀ (i : ℕ) (d : MDevice), (emitDevices m sig).1.get? i = some d →
      d.id =
        if 1 < sig.length then m ++ "-device" ++ toString (i + 1) else m := by
  constructor
  · simp [emitDevices]
  · intro i d hd
    rw [List.get?_eq_some] at hd
    obtain ⟨h, hget⟩ := hd
    have hi : i < sig.length := by simpa [emitDevices] using h
    rw [← hget]
    simp only [emitDevices]
    rw [List.get_mapIdx _ _ _ hi]

/-- C9: a device id carries the `-device<N>` ordinal suffix exactly
when two or more counter clusters survive the noise filter; in every
single-device emission (small group, too few counters, all clusters
filtered, or one surviving cluster) the id is exactly the normalised
make-model key, and device matching returns the bare key first whenever
a device under that key exists, before any counter-range logic. -/
theorem C9_single_vs_suffixed (extract : String → Option ℕ)
    (makeModel : String) (assets : List DAsset) :
    ((identifySubDevices extract makeModel assets).1 ≠ [] ∧
     ((identifySubDevices extract makeModel assets).1.length ≤ 1 →
        ∀ d ∈ (identifySubDevices extract makeModel assets).1,
          d.id = makeModel) ∧
     (2 ≤ (identifySubDevices extract makeModel assets).1.length →
        ∀ (i : ℕ) (d : MDevice),
          (identifySubDevices extract makeModel assets).1.get? i = some d →
          d.id = makeModel ++ "-device" ++ toString (i + 1))) ∧
    (∀ (ranges : List (String × ℕ × ℕ)) (asset : DAsset)
        (devices : List (String × MDevice)),
       (lookupDevice devices (makeDeviceID asset.make asset.mdl)).isSome =
         true →
       findMatchingDeviceMap extract ranges asset devices =
         makeDeviceID asset.make asset.mdl) := by
  constructor
  · have hsingle : ∀ l : List DAsset,
        mkSingleDevice makeModel l ≠ [] ∧
        (∀ d ∈ mkSingleDevice makeModel l, d.id = makeModel) ∧
        (mkSingleDevice makeModel l).length = 1 := by
      intro l
      simp [mkSingleDevice]
    by_cases h20 : assets.length < 20
    · simp only [identifySubDevices, if_pos h20]
      exact ⟨(hsingle assets).1, fun _ => (hsingle assets).2.1,
        fun h2 => absurd ((hsingle assets).2.2 ▸ h2) (by omega)⟩
    · by_cases h10 : (extractCounters extract assets).length < 10
      · simp only [identifySubDevices, if_neg h20, if_pos h10]
        exact ⟨(hsingle assets).1, fun _ => (hsingle assets).2.1,
          fun h2 => absurd ((hsingle assets).2.2 ▸ h2) (by omega)⟩
      · by_cases h0 : (significantClusters extract assets).length = 0
        · simp only [identifySubDevices, if_neg h20, if_neg h10, if_pos h0]
          exact ⟨(hsingle assets).1, fun _ => (hsingle assets).2.1,
            fun h2 => absurd ((hsingle assets).2.2 ▸ h2) (by omega)⟩
        · simp only [identifySubDevices, if_neg h20, if_neg h10, if_neg h0]
          obtain ⟨hlen, hid⟩ :=
            emitDevices_id_spec makeModel (significantClusters extract assets)
          refine ⟨?_, ?_, ?_⟩
          · intro hnil
            rw [hnil] at hlen
            simp at hlen
            exact h0 hlen.symm
          · intro hle d hd
            obtain ⟨⟨i, hi⟩, hget⟩ := List.mem_iff_get.mp hd
            have hsome : (emitDevices makeModel
                (significantClusters extract assets)).1.get? i = some d := by
              rw [List.get?_eq_some]
              exact ⟨hi, hget⟩
            have := hid i d hsome
            rwa [if_neg (by omega : ¬ 1 <
              (significantClusters extract assets).length)] at this
          · intro h2 i d hd
            have := hid i d hd
            rwa [if_pos (by omega : 1 <
              (significantClusters extract assets).length)] at this
  · intro ranges asset devices hbase
    unfold findMatchingDeviceMap
    simp [hbase]


/-- C9 (witness): the empty group yields one device under the bare
key, and matching an asset of that make/model returns the bare key. -/
theorem C9_single_vs_suffixed_witness :
    ((identifySubDevices extractNone "canon-eos" []).1.headD default).id =
      "canon-eos" ∧
    findMatchingDeviceMap extractNone [] asset4
      [("canon-eos", ⟨"canon-eos", "Canon", "EOS", 3⟩)] =
      makeDeviceID "Canon" "EOS" := by
  obtain ⟨⟨hne, h1, h2⟩, hmatch⟩ :=
    C9_single_vs_suffixed extractNone "canon-eos" []
  refine ⟨h1 (by decide) _ (by decide), hmatch [] asset4 _ (by decide)⟩

/-- Trips appended by the finalize-with-checks step satisfy the
per-trip invariant whenever the open sessions do. -/
theorem maybeFinalize_preserves (dist : Dist) (homes : List HomeLoc)
    (criteria : TripCriteria) (trips : List MTrip) (cur : List MSession)
    (htrips : ∀ t ∈ trips, tripOK dist homes criteria t)
    (htail : ∀ s ∈ cur.tail, awaySession dist homes criteria s)
    (hall : criteria.forceSplitDates = [] →
      ∀ s ∈ cur, awaySession dist homes criteria s) :
    ∀ t ∈ maybeFinalize dist homes criteria trips cur,
      tripOK dist homes criteria t := by
  intro t ht
  simp only [maybeFinalize] at ht
  by_cases h1 : criteria.minSessions ≤ (cur.length : ℤ)
  · rw [if_pos h1] at ht
    by_cases h2 : criteria.minDuration ≤
        (createTripFromSessions dist homes cur).endTime -
          (createTripFromSessions dist homes cur).startTime
    · rw [if_pos h2] at ht
      rw [List.mem_append] at ht
      rcases ht with h | h
      · exact htrips t h
      · rw [List.mem_singleton] at h
        subst h
        have hsess : (createTripFromSessions dist homes cur).sessions = cur :=
          rfl
        refine ⟨?_, ?_, ?_⟩
        · rw [hsess]
          exact htail
        · rw [hsess]
          rfl
        · intro hd
          rw [hsess]
          exact hall hd
    · rw [if_neg h2] at ht
      exact htrips t ht
  · rw [if_neg h1] at ht
    exact htrips t ht

/-- The at-home/away part of the loop body preserves the segmenter
invariant (an away session may open or extend a trip; an at-home
session never enters the open trip). -/
theorem detectStepCont_preserves (dist : Dist) (homes : List HomeLoc)
    (criteria : TripCriteria) (st : TripState) (s : MSession × Bool)
    (htag : s.2 = atHomeTag dist homes criteria s.1)
    (hok : stateOK dist homes criteria st) :
    stateOK dist homes criteria (detectStepCont dist homes criteria st s) := by
  obtain ⟨htrips, htail, hall⟩ := hok
  simp only [detectStepCont]
  by_cases h2 : s.2 = true
  · rw [if_pos h2]
    by_cases hp : st.inTrip = true ∧ st.lastHomeReturnTime = none
    · rw [if_pos hp]
      exact ⟨htrips, htail, hall⟩
    · rw [if_neg hp]
      exact ⟨htrips, htail, hall⟩
  · have hfalse : s.2 = false := by
      cases hsb : s.2
      · rfl
      · exact absurd hsb h2
    have haway : awaySession dist homes criteria s.1 := by
      rw [htag] at hfalse
      rw [atHomeTag, decide_eq_false_iff_not, not_lt] at hfalse
      exact hfalse
    rw [if_neg h2]
    by_cases hin : st.inTrip = false
    · rw [if_pos hin]
      refine ⟨htrips, by simp, ?_⟩
      intro hd x hx
      rw [List.mem_singleton] at hx
      subst hx
      exact haway
    · rw [if_neg hin]
      have happend : (∀ x ∈ (st.currentTripSessions ++ [s.1]).tail,
          awaySession dist homes criteria x) ∧
          (criteria.forceSplitDates = [] →
            ∀ x ∈ st.currentTripSessions ++ [s.1],
              awaySession dist homes criteria x) := by
        constructor
        · cases hcur : st.currentTripSessions with
          | nil => simp
          | cons b l =>
            intro x hx
            simp only [List.cons_append, List.tail_cons] at hx
            rw [List.mem_append] at hx
            rcases hx with hx | hx
            · exact htail x (by rw [hcur]; exact hx)
            · rw [List.mem_singleton] at hx
              subst hx
              exact haway
        · intro hd x hx
          rw [List.mem_append] at hx
          rcases hx with hx | hx
          · exact hall hd x hx
          · rw [List.mem_singleton] at hx
            subst hx
            exact haway
      have hnewtrip : (∀ x ∈ ([s.1] : List MSession).tail,
          awaySession dist homes criteria x) ∧
          (criteria.forceSplitDates = [] →
            ∀ x ∈ ([s.1] : List MSession),
              awaySession dist homes criteria x) := by
        refine ⟨by simp, ?_⟩
        intro hd x hx
        rw [List.mem_singleton] at hx
        subst hx
        exact haway
      cases hpend : st.lastHomeReturnTime with
      | some ret =>
        dsimp only
        by_cases hgt : criteria.maxHomeStayDuration < s.1.startTime - ret
        · rw [if_pos hgt]
          exact ⟨maybeFinalize_preserves dist homes criteria _ _ htrips htail
            hall, hnewtrip.1, hnewtrip.2⟩
        · rw [if_neg hgt]
          exact ⟨htrips, happend.1, happend.2⟩
      | none =>
        dsimp only
        by_cases hle : s.1.startTime -
            (st.currentTripSessions.getLastD default).endTime ≤
            criteria.maxSessionGap
        · rw [if_pos hle]
          exact ⟨htrips, happend.1, happend.2⟩
        · rw [if_neg hle]
          exact ⟨maybeFinalize_preserves dist homes criteria _ _ htrips htail
            hall, hnewtrip.1, hnewtrip.2⟩

/-- The full loop body preserves the segmenter invariant; in the
forced-split branch the newly opened trip may start with any session,
but that branch requires a configured split date. -/
theorem detectStep_preserves (dist : Dist) (homes : List HomeLoc)
    (criteria : TripCriteria) (st : TripState) (s : MSession × Bool)
    (htag : s.2 = atHomeTag dist homes criteria s.1)
    (hok : stateOK dist homes criteria st) :
    stateOK dist homes criteria (detectStep dist homes criteria st s).1 := by
  obtain ⟨htrips, htail, hall⟩ := hok
  simp only [detectStep]
  by_cases hc : (shouldForceSplit criteria st.currentTripSessions s.1 &&
      st.inTrip && decide (st.currentTripSessions ≠ [])) = true
  · rw [if_pos hc]
    refine ⟨maybeFinalize_preserves dist homes criteria _ _ htrips htail hall,
      by simp, ?_⟩
    intro hd
    have hsplit : shouldForceSplit criteria st.currentTripSessions s.1 =
        false := by
      simp [shouldForceSplit, hd]
    rw [hsplit] at hc
    simp at hc
  · rw [if_neg hc]
    exact detectStepCont_preserves dist homes criteria st s htag
      ⟨htrips, htail, hall⟩

/-- The end-of-input finalization preserves the segmenter invariant. -/
theorem finalCheck_preserves (dist : Dist) (homes : List HomeLoc)
    (criteria : TripCriteria) (st : TripState)
    (hok : stateOK dist homes criteria st) :
    stateOK dist homes criteria (finalCheck dist homes criteria st) := by
  obtain ⟨htrips, htail, hall⟩ := hok
  unfold finalCheck
  by_cases h : st.inTrip = true ∧ st.currentTripSessions ≠ []
  · rw [if_pos h]
    exact ⟨maybeFinalize_preserves dist homes criteria _ _ htrips htail hall,
      htail, hall⟩
  · rw [if_neg h]
    exact ⟨htrips, htail, hall⟩

/-- Every trip produced by the segmenter loop from an invariant state
satisfies the per-trip invariant. -/
theorem detectLoop_tripOK (dist : Dist) (homes : List HomeLoc)
    (criteria : TripCriteria) :
    ∀ (l : List (MSession × Bool)) (st : TripState),
      (∀ p ∈ l, p.2 = atHomeTag dist homes criteria p.1) →
      stateOK dist homes criteria st →
      ∀ t ∈ detectLoop dist homes criteria st l,
        tripOK dist homes criteria t := by
  intro l
  induction l with
  | nil =>
    intro st htag hok t ht
    simp only [detectLoop] at ht
    exact hok.1 t ht
  | cons s rest ih =>
    intro st htag hok t ht
    simp only [detectLoop] at ht
    have hstep := detectStep_preserves dist homes criteria st s
      (htag s (List.mem_cons_self _ _)) hok
    refine ih _ (fun p hp => htag p (List.mem_cons_of_mem _ hp)) ?_ t ht
    by_cases hcond : rest = [] ∧ (detectStep dist homes criteria st s).2 = false
    · rw [if_pos hcond]
      exact finalCheck_preserves dist homes criteria _ hstep
    · rw [if_neg hcond]
      exact hstep

/-- C10: in every trip emitted by the trip segmenter, every session
after the first is classified away (at or beyond min-distance-from-home
from the nearest home), and the trip's photo ids are exactly those of
its member sessions — so at-home sessions spanned by a brief return
never appear in a trip or contribute photos.  The only possible
exception is a trip's first session, and only when forced split dates
are configured: with no split dates every session of every trip,
including the first, is away. -/
theorem C10_trip_sessions_away (dist : Dist) (sessions : List MSession)
    (homes : List HomeLoc) (criteria : TripCriteria) :
    ∀ t ∈ DetectTrips dist sessions homes criteria,
      (∀ s ∈ t.sessions.tail, awaySession dist homes criteria s) ∧
      t.assetIDs = t.sessions.flatMap (·.assetIDs) ∧
      (criteria.forceSplitDates = [] →
        ∀ s ∈ t.sessions, awaySession dist homes criteria s) := by
  intro t ht
  simp only [DetectTrips] at ht
  by_cases hnil : sessions = []
  · rw [if_pos hnil] at ht
    exact absurd ht (List.not_mem_nil t)
  · rw [if_neg hnil] at ht
    by_cases hzero : ((sessions.map
        (fun s => (s, atHomeTag dist homes criteria s))).filter
          (fun p => !p.2)).length = 0
    · rw [if_pos hzero] at ht
      exact absurd ht (List.not_mem_nil t)
    · rw [if_neg hzero] at ht
      have := detectLoop_tripOK dist homes criteria _ ⟨[], [], none, false⟩
        (by
          intro p hp
          rw [List.mem_map] at hp
          obtain ⟨x, hx, rfl⟩ := hp
          rfl)
        ⟨by simp, by simp, fun _ => by simp⟩ t ht
      exact this


/-- C10 (witness): in the brief-return scenario the emitted trip's
second session is away and the photo ids come from its sessions. -/
theorem C10_trip_sessions_away_witness :
    awaySession distLat homes6 crit6 hsB10 ∧
    (createTripFromSessions distLat homes6 [hsA, hsB10]).assetIDs =
      (createTripFromSessions distLat homes6 [hsA, hsB10]).sessions.flatMap
        (·.assetIDs) := by
  obtain ⟨h1, h2, h3⟩ :=
    C10_trip_sessions_away distLat [hsA, hsH, hsB10] homes6 crit6
      (createTripFromSessions distLat homes6 [hsA, hsB10])
      (by
        have heval : DetectTrips distLat [hsA, hsH, hsB10] homes6 crit6 =
            [createTripFromSessions distLat homes6 [hsA, hsB10]] := by
          norm_num [DetectTrips, detectLoop, detectStep, detectStepCont,
            finalCheck, shouldForceSplit, maybeFinalize,
            createTripFromSessions, calculateMinDistanceFromHomes, atHomeTag,
            distLat, hsA, hsH, hsB10, homes6, crit6, List.filter,
            List.eraseDups, List.eraseDups.loop, min_def]
          simp
          norm_num
          try simp
          try decide
        rw [heval]
        exact List.mem_singleton.mpr rfl)
  exact ⟨h1 hsB10 (List.mem_singleton.mpr rfl), h2⟩

end ImmichAlbums
